import Mathlib

/-!
# Win32 clipboard implementation (src/SFML/Window/Win32/ClipboardImpl.cpp)

A shallow embedding of `sf::priv::ClipboardImpl::getString`, `setString` and
`setImage`.  The operating system is a value of type `Win32`: it carries the
scripted outcome of every OS call the three functions make, the clipboard
itself, the text written to `std::cerr` and the list of OS calls made so far.
Every OS call is a function on that value; the three functions thread it in
the order of the source.
-/

namespace ClipboardImpl

/-! ## Constants of `windows.h` -/

/-- Clipboard format number of `CF_UNICODETEXT`. -/
def CF_UNICODETEXT : Nat := 13

/-- Clipboard format number of `CF_DIB`. -/
def CF_DIB : Nat := 8

/-- Value of `sizeof(WCHAR)`. -/
def sizeofWCHAR : Nat := 2

/-- Value of `sizeof(RGBQUAD)`. -/
def sizeofRGBQUAD : Nat := 4

/-- Value of `sizeof(BITMAPINFOHEADER)`. -/
def sizeofBITMAPINFOHEADER : Nat := 40

/-! ## The operating system -/

/-- One OS call, with the arguments the properties below talk about. -/
inductive Call where
  | IsClipboardFormatAvailable (format : Nat)
  | OpenClipboard
  | CloseClipboard
  | EmptyClipboard
  | GetClipboardData (format : Nat)
  | GlobalAlloc (bytes : Nat)
  | GlobalLock
  | GlobalUnlock
  | GlobalFree
  | SetClipboardData (format : Nat)
  | CreateBitmap (width height planes bitCount : Nat) (bits : List Nat)
  | GetObject
  | GetDC
  | GetStockObject
  | SelectPalette
  | RealizePalette
  | GetDIBits (withBits : Bool)
  | ReleaseDC
  deriving DecidableEq, Repr

/-- What the clipboard holds: a block of wide characters placed as
`CF_UNICODETEXT`, or a device-independent bitmap placed as `CF_DIB` (kept as
the header's bit count and the size of the block). -/
inductive Clip where
  | unicodeText (buffer : List Nat)
  | dib (biBitCount : Nat) (bytes : Nat)
  deriving DecidableEq, Repr

/-- The operating system as the three functions see it.  The first group of
fields scripts the outcome of the OS calls whose result the code inspects or
uses; the second group is the state the calls change. -/
structure Win32 where
  /-- Whether `OpenClipboard` succeeds. -/
  openClipboardOk : Bool
  /-- Whether `EmptyClipboard` succeeds. -/
  emptyClipboardOk : Bool
  /-- Whether `GetClipboardData` hands out a handle when the format is present. -/
  getClipboardDataOk : Bool
  /-- Whether `GlobalAlloc` hands out a block. -/
  globalAllocOk : Bool
  /-- Whether `SetClipboardData` accepts the block. -/
  setClipboardDataOk : Bool
  /-- Value of `bm.bmWidth` as filled in by `GetObject`. -/
  bmWidth : Nat
  /-- Value of `bm.bmHeight` as filled in by `GetObject`. -/
  bmHeight : Nat
  /-- Value of `bm.bmBitsPixel` as filled in by `GetObject`. -/
  bmBitsPixel : Nat
  /-- Value of `bi.biSizeImage` as left by the first `GetDIBits` call. -/
  biSizeImage : Nat
  /-- Return value of the second `GetDIBits` call. -/
  nConv : Int
  /-- Contents of the clipboard. -/
  clipboard : Option Clip
  /-- The clipboard is open for this process. -/
  isOpen : Bool
  /-- OS calls made so far, oldest first. -/
  calls : List Call
  /-- Lines written to `std::cerr`, oldest first. -/
  cerr : List String
  deriving Repr

namespace Win32

/-- Record an OS call. -/
def call (w : Win32) (c : Call) : Win32 :=
  { w with calls := w.calls ++ [c] }

/-- Write one line to `std::cerr`. -/
def err (w : Win32) (msg : String) : Win32 :=
  { w with cerr := w.cerr ++ [msg] }

end Win32

/-- Model of `IsClipboardFormatAvailable(format)`: the clipboard holds data of that format. -/
def IsClipboardFormatAvailable (format : Nat) (w : Win32) : Bool × Win32 :=
  let w := w.call (Call.IsClipboardFormatAvailable format)
  match w.clipboard with
  | some (Clip.unicodeText _) => (decide (format = CF_UNICODETEXT), w)
  | some (Clip.dib _ _) => (decide (format = CF_DIB), w)
  | none => (false, w)

/-- Model of `OpenClipboard(NULL)`. -/
def OpenClipboard (w : Win32) : Bool × Win32 :=
  let w := w.call Call.OpenClipboard
  if w.openClipboardOk then (true, { w with isOpen := true }) else (false, w)

/-- Model of `CloseClipboard()`. -/
def CloseClipboard (w : Win32) : Win32 :=
  { w.call Call.CloseClipboard with isOpen := false }

/-- Model of `EmptyClipboard()`: on success the clipboard holds nothing. -/
def EmptyClipboard (w : Win32) : Bool × Win32 :=
  let w := w.call Call.EmptyClipboard
  if w.emptyClipboardOk then (true, { w with clipboard := none }) else (false, w)

/-- Model of `GetClipboardData(CF_UNICODETEXT)`: the block of wide characters
on the clipboard, or a null handle. -/
def GetClipboardData (format : Nat) (w : Win32) : Option (List Nat) × Win32 :=
  let w := w.call (Call.GetClipboardData format)
  match w.clipboard with
  | some (Clip.unicodeText buffer) =>
      if w.getClipboardDataOk && decide (format = CF_UNICODETEXT) then (some buffer, w)
      else (none, w)
  | _ => (none, w)

/-- Model of `GlobalAlloc(GMEM_MOVEABLE, bytes)`: whether a block was handed out. -/
def GlobalAlloc (bytes : Nat) (w : Win32) : Bool × Win32 :=
  let w := w.call (Call.GlobalAlloc bytes)
  (w.globalAllocOk, w)

/-- Model of `SetClipboardData(format, handle)`: on success the clipboard
holds the block. -/
def SetClipboardData (format : Nat) (data : Clip) (w : Win32) : Win32 :=
  let w := w.call (Call.SetClipboardData format)
  if w.setClipboardDataOk then { w with clipboard := some data } else w

/-! ## `sf::String` and wide strings

`sf::String` is a sequence of 32-bit code points (`List Nat`).  Its
conversions to and from wide characters (`String::toWideString`,
`String::String(const wchar_t*)`) live in SFML/System, outside this file; the
per-character conversions are taken as a parameter. -/

/-- Per-character conversions between code points and wide characters. -/
structure WideCodec where
  /-- Wide characters written for one code point by `toWideString`. -/
  encodeWide : Nat → List Nat
  /-- Code point read for one wide character by `String(const wchar_t*)`. -/
  decodeWide : Nat → Nat

/-- Result of `text.toWideString()`. -/
def toWideString (codec : WideCodec) (text : List Nat) : List Nat :=
  text.flatMap codec.encodeWide

/-- Reading a null-terminated wide string from a block: the characters before
the first null; reading a block with no null runs off its end. -/
def readWide : List Nat → Option (List Nat)
  | [] => none
  | c :: rest => if c = 0 then some [] else (readWide rest).map (fun s => c :: s)

/-- Result of `String(static_cast<wchar_t*>(p))` for `p` pointing to `buffer`. -/
def fromWide (codec : WideCodec) (buffer : List Nat) : Option (List Nat) :=
  (readWide buffer).map (fun s => s.map codec.decodeWide)

/-- Result of `memcpy(dst, source.data(), bytes)` where `source` is a
`std::wstring`: `source.data()` is valid for `source.size() + 1` wide
characters, the last being the null terminator; copying more runs off its end. -/
def memcpyWide (source : List Nat) (bytes : Nat) : Option (List Nat) :=
  let count := bytes / sizeofWCHAR
  if count ≤ source.length + 1 then some ((source ++ [0]).take count) else none

/-! ## `ClipboardImpl::getString` (lines 39-69) -/

/-- Embedding of `ClipboardImpl::getString`: the returned text and the OS afterwards. -/
def getString (codec : WideCodec) (w : Win32) : Option (List Nat × Win32) :=
  let text : List Nat := []
  let (available, w) := IsClipboardFormatAvailable CF_UNICODETEXT w
  if !available then
    let w := w.err "Failed to get the clipboard data in Unicode format."
    some (text, w)
  else
    let (opened, w) := OpenClipboard w
    if !opened then
      let w := w.err "Failed to open the Win32 clipboard."
      some (text, w)
    else
      let (clipboard_handle, w) := GetClipboardData CF_UNICODETEXT w
      match clipboard_handle with
      | none =>
          let w := w.err "Failed to get Win32 handle for clipboard content."
          let w := CloseClipboard w
          some (text, w)
      | some buffer =>
          let w := w.call Call.GlobalLock
          match fromWide codec buffer with
          | none => none
          | some text =>
              let w := w.call Call.GlobalUnlock
              let w := CloseClipboard w
              some (text, w)

/-! ## `ClipboardImpl::setString` (lines 73-99) -/

/-- Embedding of `ClipboardImpl::setString`: the OS afterwards.
`string_size` cannot wrap: the text itself occupies four bytes per character. -/
def setString (codec : WideCodec) (text : List Nat) (w : Win32) : Option Win32 :=
  let (opened, w) := OpenClipboard w
  if !opened then
    let w := w.err "Failed to open the Win32 clipboard."
    some w
  else
    let (emptied, w) := EmptyClipboard w
    if !emptied then
      let w := w.err "Failed to empty the Win32 clipboard."
      some w
    else
      let string_size := (text.length + 1) * sizeofWCHAR
      let (string_handle, w) := GlobalAlloc string_size w
      if string_handle then
        let w := w.call Call.GlobalLock
        match memcpyWide (toWideString codec text) string_size with
        | none => none
        | some block =>
            let w := w.call Call.GlobalUnlock
            let w := SetClipboardData CF_UNICODETEXT (Clip.unicodeText block) w
            some (CloseClipboard w)
      else
        some (CloseClipboard w)

/-! ## `ClipboardImpl::setImage` (lines 101-198) -/

/-- Product of two `unsigned int` values. -/
def mul32 (a b : Nat) : Nat := (a * b) % 2 ^ 32

/-- Sum of two `unsigned int` values. -/
def add32 (a b : Nat) : Nat := (a + b) % 2 ^ 32

/-- Result of `new Uint8[n]`: `n` bytes of indeterminate content, given by `garbage`. -/
def newUint8 (garbage : Nat → Nat) (n : Nat) : List Nat :=
  (List.range n).map garbage

/-- Reading `buffer[index]`; reading outside the buffer is undefined. -/
def load (buffer : List Nat) (index : Nat) : Option Nat :=
  buffer[index]?

/-- Writing `buffer[index] = value`; writing outside the buffer is undefined. -/
def store (buffer : List Nat) (index value : Nat) : Option (List Nat) :=
  if index < buffer.length then some (buffer.set index value) else none

/-- The loop of lines 117-122, `remaining` iterations from index `i` on.  It
is entered with `remaining = width * height` and `i = 0`, so `i` stays below
the 32-bit loop bound and `i++` does not wrap. -/
def swapLoop (originalBitmap : List Nat) : Nat → Nat → List Nat → Option (List Nat)
  | 0, _, channelsSwapped => some channelsSwapped
  | remaining + 1, i, channelsSwapped =>
      (load originalBitmap (add32 (mul32 i 4) 2)).bind fun b0 =>
      (store channelsSwapped (add32 (mul32 i 4) 0) b0).bind fun s0 =>
      (load originalBitmap (add32 (mul32 i 4) 1)).bind fun b1 =>
      (store s0 (add32 (mul32 i 4) 1) b1).bind fun s1 =>
      (load originalBitmap (add32 (mul32 i 4) 0)).bind fun b2 =>
      (store s1 (add32 (mul32 i 4) 2) b2).bind fun s2 =>
      swapLoop originalBitmap remaining (i + 1) s2

/-- Lines 115-122: the buffer `channelsSwapped` after the loop. -/
def channelSwap (width height : Nat) (originalBitmap : List Nat) (garbage : Nat → Nat) :
    Option (List Nat) :=
  let channelsSwapped := newUint8 garbage (mul32 (mul32 width height) 4)
  swapLoop originalBitmap (mul32 width height) 0 channelsSwapped

/-- Lines 138-147: the value of `bi.biBitCount` for `bm.bmBitsPixel = bitsPixel`. -/
def normalizeBitCount (bitsPixel : Nat) : Nat :=
  if bitsPixel ≤ 1 then 1
  else if bitsPixel ≤ 4 then 4
  else if bitsPixel ≤ 8 then 8
  else 24

/-- Line 150: `dwColTableLen`. -/
def colTableLen (biBitCount : Nat) : Nat :=
  if biBitCount ≤ 8 then (1 <<< biBitCount) * sizeofRGBQUAD else 0

/-- Line 164: `bi.biSizeImage` computed from the header (non-negative
dimensions; the field is a `DWORD`). -/
def computedSizeImage (biWidth biBitCount biHeight : Nat) : Nat :=
  ((((biWidth * biBitCount) + 31) / 32 * 32) / 8) * biHeight % 2 ^ 32

/-- Embedding of `ClipboardImpl::setImage`: the OS afterwards.  `pixels` is
the memory behind `pointer`; `garbage` is the content of the fresh allocation
of line 116. -/
def setImage (width height : Nat) (pixels : List Nat) (garbage : Nat → Nat) (w : Win32) :
    Option Win32 :=
  let (opened, w) := OpenClipboard w
  if !opened then
    let w := w.err "Failed to open the Win32 clipboard."
    some w
  else
    let (emptied, w) := EmptyClipboard w
    if !emptied then
      let w := w.err "Failed to empty the Win32 clipboard."
      some w
    else
      match channelSwap width height pixels garbage with
      | none => none
      | some channelsSwapped =>
          let w := w.call (Call.CreateBitmap width height 4 8 channelsSwapped)
          let w := w.call Call.GetObject
          let biWidth := w.bmWidth
          let biHeight := w.bmHeight
          let biBitCount := normalizeBitCount w.bmBitsPixel
          let dwColTableLen := colTableLen biBitCount
          let w := w.call Call.GetDC
          let w := w.call Call.GetStockObject
          let w := w.call Call.SelectPalette
          let w := w.call Call.RealizePalette
          let w := w.call (Call.GetDIBits false)
          let biSizeImage :=
            if w.biSizeImage = 0 then computedSizeImage biWidth biBitCount biHeight
            else w.biSizeImage
          let bytes := sizeofBITMAPINFOHEADER + dwColTableLen + biSizeImage
          let (hDIB, w) := GlobalAlloc bytes w
          let (hDIB, w) :=
            if hDIB then
              let w := w.call Call.GlobalLock
              let w := w.call (Call.GetDIBits true)
              let w := w.call Call.GlobalUnlock
              if w.nConv = 0 then (false, w.call Call.GlobalFree) else (true, w)
            else (hDIB, w)
          let w := if hDIB then SetClipboardData CF_DIB (Clip.dib biBitCount bytes) w else w
          let w := CloseClipboard w
          let w := w.call Call.SelectPalette
          let w := w.call Call.ReleaseDC
          some w

/-! ## Concrete operating systems and helpers for the statements -/

/-- Number of times `c` occurs among the OS calls made. -/
def Win32.count (w : Win32) (c : Call) : Nat := w.calls.count c

/-- An OS on which every call succeeds, with an empty clipboard and nothing
called or written yet. -/
def allOk : Win32 :=
  { openClipboardOk := true, emptyClipboardOk := true, getClipboardDataOk := true,
    globalAllocOk := true, setClipboardDataOk := true,
    bmWidth := 1, bmHeight := 1, bmBitsPixel := 32, biSizeImage := 4, nConv := 1,
    clipboard := none, isOpen := false, calls := [], cerr := [] }

/-- An OS on which `OpenClipboard` succeeds and `EmptyClipboard` fails, with
the text "Hi" on the clipboard. -/
def emptyFails : Win32 :=
  { allOk with emptyClipboardOk := false, clipboard := some (Clip.unicodeText [72, 105, 0]) }

/-- An OS on which only `OpenClipboard` fails, with the text "Hi" on the clipboard. -/
def openFails : Win32 :=
  { allOk with openClipboardOk := false, clipboard := some (Clip.unicodeText [72, 105, 0]) }

/-- An OS on which only `GlobalAlloc` fails, with the text "Hi" on the clipboard. -/
def allocFails : Win32 :=
  { allOk with globalAllocOk := false, clipboard := some (Clip.unicodeText [72, 105, 0]) }

/-- An OS on which only `GetClipboardData` fails, with the text "Hi" on the clipboard. -/
def getDataFails : Win32 :=
  { allOk with getClipboardDataOk := false, clipboard := some (Clip.unicodeText [72, 105, 0]) }

/-- An OS on which only the bit conversion (the second `GetDIBits`) fails,
with the text "Hi" on the clipboard. -/
def convFails : Win32 :=
  { allOk with nConv := 0, clipboard := some (Clip.unicodeText [72, 105, 0]) }

/-- The conversions for the 16-bit `wchar_t` of Win32: a code point of the
basic plane outside the surrogate range is one wide character, any other code
point is dropped. -/
def win32Codec : WideCodec :=
  { encodeWide := fun c => if c ≤ 0xFFFF ∧ (c < 0xD800 ∨ 0xDFFF < c) then [c] else [],
    decodeWide := fun c => c }

/-! ## Auxiliary facts -/

theorem index32 (i k n : Nat) (hk : k < 4) (hi : i < n) (hn : n * 4 < 2 ^ 32) :
    add32 (mul32 i 4) k = 4 * i + k := by
  unfold add32 mul32
  rw [Nat.mod_eq_of_lt (by omega), Nat.mod_eq_of_lt (by omega)]
  omega

theorem store_eq (buffer : List Nat) (index value : Nat) (h : index < buffer.length) :
    store buffer index value = some (buffer.set index value) := by
  simp [store, h]

theorem load_eq (buffer : List Nat) (index : Nat) (h : index < buffer.length) :
    load buffer index = some (buffer.get ⟨index, h⟩) := by
  simp [load, List.getElem?_eq_getElem h]

theorem swapLoop_spec (src : List Nat) : ∀ (remaining i : Nat) (dst : List Nat),
    (i + remaining) * 4 < 2 ^ 32 → (i + remaining) * 4 ≤ src.length →
    (i + remaining) * 4 ≤ dst.length →
    ∃ out, swapLoop src remaining i dst = some out ∧ out.length = dst.length ∧
      (∀ j, i ≤ j → j < i + remaining →
        out[4 * j]? = src[4 * j + 2]? ∧ out[4 * j + 1]? = src[4 * j + 1]? ∧
        out[4 * j + 2]? = src[4 * j]?) ∧
      (∀ k, (k < 4 * i ∨ 4 * (i + remaining) ≤ k ∨ k % 4 = 3) → out[k]? = dst[k]?) := by
  intro remaining
  induction remaining with
  | zero =>
      intro i dst _ _ _
      refine ⟨dst, rfl, rfl, ?_, ?_⟩
      · intro j h1 h2; omega
      · intro k _; rfl
  | succ r ih =>
      intro i dst h32 hsrc hdst
      have hi : i < i + (r + 1) := by omega
      have e0 := index32 i 0 _ (by omega) hi h32
      have e1 := index32 i 1 _ (by omega) hi h32
      have e2 := index32 i 2 _ (by omega) hi h32
      have l0 : 4 * i + 0 < src.length := by omega
      have l1 : 4 * i + 1 < src.length := by omega
      have l2 : 4 * i + 2 < src.length := by omega
      have d0 : 4 * i + 0 < dst.length := by omega
      have d1 : 4 * i + 1 < dst.length := by omega
      have d2 : 4 * i + 2 < dst.length := by omega
      obtain ⟨out, hout, hlen, hpix, hrest⟩ :=
        ih (i + 1) (((dst.set (4 * i + 0) (src.get ⟨4 * i + 2, l2⟩)).set (4 * i + 1)
          (src.get ⟨4 * i + 1, l1⟩)).set (4 * i + 2) (src.get ⟨4 * i + 0, l0⟩))
          (by omega) (by omega) (by simp only [List.length_set]; omega)
      refine ⟨out, ?_, ?_, ?_, ?_⟩
      · rw [swapLoop, e0, e1, e2, load_eq _ _ l2, Option.some_bind,
          store_eq _ _ _ d0, Option.some_bind, load_eq _ _ l1, Option.some_bind,
          store_eq _ _ _ (by simp only [List.length_set]; omega), Option.some_bind,
          load_eq _ _ l0, Option.some_bind,
          store_eq _ _ _ (by simp only [List.length_set]; omega), Option.some_bind]
        exact hout
      · simpa only [List.length_set] using hlen
      · intro j hj1 hj2
        rcases Nat.eq_or_lt_of_le hj1 with hj | hj
        · subst hj
          have a0 := hrest (4 * i) (Or.inl (by omega))
          have a1 := hrest (4 * i + 1) (Or.inl (by omega))
          have a2 := hrest (4 * i + 2) (Or.inl (by omega))
          refine ⟨?_, ?_, ?_⟩
          · rw [a0]
            have d0' : 4 * i < dst.length := by omega
            simp [List.getElem?_set, List.getElem?_eq_getElem, d0', l2]
          · rw [a1]
            simp [List.getElem?_set, List.getElem?_eq_getElem, d1, l1]
          · rw [a2]
            have l0' : 4 * i < src.length := by omega
            simp [List.getElem?_set, List.getElem?_eq_getElem, d2, l0']
        · exact hpix j (by omega) (by omega)
      · intro k hk
        have hk3 : k ≠ 4 * i + 0 ∧ k ≠ 4 * i + 1 ∧ k ≠ 4 * i + 2 := by omega
        rw [hrest k (by omega)]
        simp only [List.getElem?_set]
        rw [if_neg (by omega), if_neg (by omega), if_neg (by omega)]

theorem length_newUint8 (garbage : Nat → Nat) (n : Nat) : (newUint8 garbage n).length = n := by
  simp [newUint8]

theorem getElem?_newUint8 (garbage : Nat → Nat) (n k : Nat) (h : k < n) :
    (newUint8 garbage n)[k]? = some (garbage k) := by
  simp [newUint8, List.getElem?_map, List.getElem?_range h]

theorem channelSwap_spec (width height : Nat) (pixels : List Nat) (garbage : Nat → Nat)
    (h32 : width * height * 4 < 2 ^ 32) (hlen : pixels.length = width * height * 4) :
    ∃ out, channelSwap width height pixels garbage = some out ∧
      out.length = width * height * 4 ∧
      (∀ i, i < width * height →
        out[4 * i]? = pixels[4 * i + 2]? ∧ out[4 * i + 1]? = pixels[4 * i + 1]? ∧
        out[4 * i + 2]? = pixels[4 * i]?) ∧
      (∀ i, i < width * height → out[4 * i + 3]? = some (garbage (4 * i + 3))) := by
  have hm : mul32 width height = width * height := by
    unfold mul32; exact Nat.mod_eq_of_lt (by omega)
  have hm4 : mul32 (mul32 width height) 4 = width * height * 4 := by
    rw [hm]; unfold mul32; exact Nat.mod_eq_of_lt h32
  obtain ⟨out, hout, hl, hpix, hrest⟩ :=
    swapLoop_spec pixels (width * height) 0 (newUint8 garbage (width * height * 4))
      (by omega) (by omega) (by rw [length_newUint8]; omega)
  refine ⟨out, ?_, ?_, ?_, ?_⟩
  · unfold channelSwap
    rw [hm4, hm]
    exact hout
  · rw [hl, length_newUint8]
  · intro i hi
    exact hpix i (Nat.zero_le i) (by omega)
  · intro i hi
    rw [hrest (4 * i + 3) (Or.inr (Or.inr (by omega)))]
    exact getElem?_newUint8 garbage _ _ (by omega)

theorem setImage_run (width height : Nat) (pixels : List Nat) (garbage : Nat → Nat)
    (w : Win32) (out : List Nat) (ho : w.openClipboardOk = true)
    (he : w.emptyClipboardOk = true)
    (hs : channelSwap width height pixels garbage = some out) :
    ∃ w' bytes, setImage width height pixels garbage w = some w' ∧
      w'.calls = w.calls ++ ([Call.OpenClipboard, Call.EmptyClipboard,
          Call.CreateBitmap width height 4 8 out, Call.GetObject, Call.GetDC,
          Call.GetStockObject, Call.SelectPalette, Call.RealizePalette,
          Call.GetDIBits false, Call.GlobalAlloc bytes]
        ++ (if w.globalAllocOk = true then
              [Call.GlobalLock, Call.GetDIBits true, Call.GlobalUnlock]
                ++ (if w.nConv = 0 then [Call.GlobalFree] else [Call.SetClipboardData CF_DIB])
            else [])
        ++ [Call.CloseClipboard, Call.SelectPalette, Call.ReleaseDC]) ∧
      w'.cerr = w.cerr ∧ w'.isOpen = false ∧
      w'.clipboard =
        (if w.globalAllocOk = true ∧ w.nConv ≠ 0 ∧ w.setClipboardDataOk = true then
          some (Clip.dib (normalizeBitCount w.bmBitsPixel) bytes) else none) := by
  by_cases ha : w.globalAllocOk = true <;> by_cases hn : w.nConv = 0 <;>
    by_cases hd : w.setClipboardDataOk = true <;>
    simp [setImage, hs, OpenClipboard, EmptyClipboard, GlobalAlloc, SetClipboardData,
      CloseClipboard, Win32.call, Win32.err, ho, he, ha, hn, hd]

theorem setImage_createBitmap (width height : Nat) (pixels : List Nat) (garbage : Nat → Nat)
    (w : Win32) (out : List Nat) (ho : w.openClipboardOk = true)
    (he : w.emptyClipboardOk = true)
    (hs : channelSwap width height pixels garbage = some out) :
    ∃ w' rest, setImage width height pixels garbage w = some w' ∧
      w'.calls = w.calls ++ Call.OpenClipboard :: Call.EmptyClipboard ::
        Call.CreateBitmap width height 4 8 out :: rest ∧
      ∀ a b p q bits, Call.CreateBitmap a b p q bits ∉ rest := by
  obtain ⟨w', bytes, hrun, hcalls, -, -, -⟩ :=
    setImage_run width height pixels garbage w out ho he hs
  refine ⟨w', [Call.GetObject, Call.GetDC, Call.GetStockObject, Call.SelectPalette,
      Call.RealizePalette, Call.GetDIBits false, Call.GlobalAlloc bytes]
    ++ (if w.globalAllocOk = true then
          [Call.GlobalLock, Call.GetDIBits true, Call.GlobalUnlock]
            ++ (if w.nConv = 0 then [Call.GlobalFree] else [Call.SetClipboardData CF_DIB])
        else [])
    ++ [Call.CloseClipboard, Call.SelectPalette, Call.ReleaseDC], hrun, ?_, ?_⟩
  · rw [hcalls]
    simp only [List.cons_append, List.nil_append, List.append_assoc]
  · intro a b p q bits
    by_cases ha : w.globalAllocOk = true <;> by_cases hn : w.nConv = 0 <;> simp [ha, hn]

theorem normalizeBitCount_cases (b : Nat) :
    (b ≤ 1 ∧ normalizeBitCount b = 1) ∨ (1 < b ∧ b ≤ 4 ∧ normalizeBitCount b = 4) ∨
    (4 < b ∧ b ≤ 8 ∧ normalizeBitCount b = 8) ∨ (8 < b ∧ normalizeBitCount b = 24) := by
  unfold normalizeBitCount
  split_ifs <;> omega

theorem setImage_undefined (width height : Nat) (pixels : List Nat) (garbage : Nat → Nat)
    (w : Win32) (ho : w.openClipboardOk = true) (he : w.emptyClipboardOk = true)
    (hs : channelSwap width height pixels garbage = none) :
    setImage width height pixels garbage w = none := by
  simp [setImage, hs, OpenClipboard, EmptyClipboard, Win32.call, ho, he]

theorem channelSwap_wrapped :
    channelSwap 65536 16384 (List.replicate 4294967296 0) (fun _ => 0) = none := by
  have hb : mul32 65536 16384 = 1073741823 + 1 := by norm_num [mul32]
  have h4 : mul32 (1073741823 + 1) 4 = 0 := by norm_num [mul32]
  have i2 : add32 (mul32 0 4) 2 = 2 := by norm_num [mul32, add32]
  have i0 : add32 (mul32 0 4) 0 = 0 := by norm_num [mul32, add32]
  have l2 : load (List.replicate 4294967296 0) 2 = some 0 := by
    unfold load
    rw [List.getElem?_replicate]
    norm_num
  have s0 : store (newUint8 (fun _ => 0) 0) 0 0 = none := rfl
  unfold channelSwap
  rw [hb, h4]
  show swapLoop _ (1073741823 + 1) 0 _ = none
  rw [swapLoop, i2, i0, l2, Option.some_bind, s0, Option.none_bind]

theorem readWide_terminated (ws rest : List Nat) (h : ∀ x ∈ ws, x ≠ 0) :
    readWide (ws ++ 0 :: rest) = some ws := by
  induction ws with
  | nil => simp [readWide]
  | cons x xs ih =>
      have hx : x ≠ 0 := h x (List.mem_cons_self x xs)
      have hxs : ∀ y ∈ xs, y ≠ 0 := fun y hy => h y (List.mem_cons_of_mem x hy)
      simp [readWide, hx, ih hxs]

theorem toWideString_one_each (codec : WideCodec) (text : List Nat)
    (h : ∀ c ∈ text, c ≠ 0 ∧
      ∃ wc, wc ≠ 0 ∧ codec.encodeWide c = [wc] ∧ codec.decodeWide wc = c) :
    (toWideString codec text).length = text.length ∧
    (∀ x ∈ toWideString codec text, x ≠ 0) ∧
    (toWideString codec text).map codec.decodeWide = text := by
  induction text with
  | nil => simp [toWideString]
  | cons c cs ih =>
      obtain ⟨-, wc, hwc, henc, hdec⟩ := h c (List.mem_cons_self c cs)
      obtain ⟨hl, hnz, hmap⟩ := ih (fun y hy => h y (List.mem_cons_of_mem c hy))
      have e : toWideString codec (c :: cs) = wc :: toWideString codec cs := by
        simp [toWideString, henc]
      rw [e]
      refine ⟨by simp [hl], ?_, by simp [hdec, hmap]⟩
      intro x hx
      rcases List.mem_cons.mp hx with hx | hx
      · rw [hx]; exact hwc
      · exact hnz x hx

theorem memcpyWide_whole (ws : List Nat) (n : Nat) (h : ws.length = n) :
    memcpyWide ws ((n + 1) * sizeofWCHAR) = some (ws ++ [0]) := by
  have hc : (n + 1) * sizeofWCHAR / sizeofWCHAR = n + 1 := by
    simp [sizeofWCHAR]
  unfold memcpyWide
  simp only [hc]
  rw [if_pos (by omega)]
  congr 1
  apply List.take_of_length_le
  simp [h]

theorem setString_stores (codec : WideCodec) (text block : List Nat) (w : Win32)
    (hopen : w.openClipboardOk = true) (hempty : w.emptyClipboardOk = true)
    (halloc : w.globalAllocOk = true) (hset : w.setClipboardDataOk = true)
    (hcpy : memcpyWide (toWideString codec text) ((text.length + 1) * sizeofWCHAR) =
      some block) :
    ∃ w1, setString codec text w = some w1 ∧
      w1.clipboard = some (Clip.unicodeText block) ∧
      w1.openClipboardOk = true ∧ w1.getClipboardDataOk = w.getClipboardDataOk := by
  simp [setString, OpenClipboard, EmptyClipboard, GlobalAlloc, SetClipboardData,
    CloseClipboard, Win32.call, hopen, hempty, halloc, hset, hcpy]

theorem getString_reads (codec : WideCodec) (text buffer : List Nat) (w : Win32)
    (hclip : w.clipboard = some (Clip.unicodeText buffer))
    (hopen : w.openClipboardOk = true) (hget : w.getClipboardDataOk = true)
    (hread : fromWide codec buffer = some text) :
    ∃ w2, getString codec w = some (text, w2) := by
  simp [getString, IsClipboardFormatAvailable, OpenClipboard, GetClipboardData,
    CloseClipboard, Win32.call, hclip, hopen, hget, hread]

/-! ## The claims -/

/-- C9: for every bits-per-pixel value `b`, the normalised `biBitCount` is one
of 1, 4, 8, 24; for `b ≤ 8` it is the smallest of 1, 4, 8 that is at least `b`,
for `b > 8` it is 24; normalising twice is normalising once; and the
colour-table length is `4 * 2 ^ biBitCount` (8, 64 or 1024) when
`biBitCount ≤ 8` and 0 when it is 24. -/
theorem bit_count_normalisation (b : Nat) :
    (normalizeBitCount b = 1 ∨ normalizeBitCount b = 4 ∨ normalizeBitCount b = 8 ∨
      normalizeBitCount b = 24) ∧
    (b ≤ 8 → (normalizeBitCount b = 1 ∨ normalizeBitCount b = 4 ∨ normalizeBitCount b = 8) ∧
      b ≤ normalizeBitCount b ∧
      ∀ m, (m = 1 ∨ m = 4 ∨ m = 8) → b ≤ m → normalizeBitCount b ≤ m) ∧
    (8 < b → normalizeBitCount b = 24) ∧
    normalizeBitCount (normalizeBitCount b) = normalizeBitCount b ∧
    (normalizeBitCount b ≤ 8 →
      colTableLen (normalizeBitCount b) = 4 * 2 ^ normalizeBitCount b ∧
      (colTableLen (normalizeBitCount b) = 8 ∨ colTableLen (normalizeBitCount b) = 64 ∨
        colTableLen (normalizeBitCount b) = 1024)) ∧
    (normalizeBitCount b = 24 → colTableLen (normalizeBitCount b) = 0) := by
  rcases normalizeBitCount_cases b with ⟨h, e⟩ | ⟨h1, h2, e⟩ | ⟨h1, h2, e⟩ | ⟨h, e⟩ <;>
    rw [e] <;>
    refine ⟨by omega, ?_, ?_, by decide, ?_, ?_⟩ <;>
    first
      | (intro hb; refine ⟨by omega, by omega, ?_⟩; intro m hm hbm; omega)
      | (intro hb; omega)
      | (intro _; decide)

/-- C9 at `b = 3` and `b = 32`: the header gets 4 bits with a 64-byte colour
table, and 24 bits with no colour table. -/
theorem bit_count_normalisation_witness :
    normalizeBitCount 3 = 4 ∧ colTableLen (normalizeBitCount 3) = 64 ∧
    normalizeBitCount 32 = 24 ∧ colTableLen (normalizeBitCount 32) = 0 := by
  have h3 := bit_count_normalisation 3
  have h32 := bit_count_normalisation 32
  exact ⟨by decide, by decide, h32.2.2.1 (by decide), h32.2.2.2.2.2 (h32.2.2.1 (by decide))⟩

/-- C5: for `width * height * 4 < 2 ^ 32` and a pixel buffer of
`width * height * 4` bytes, the channel swap succeeds, its result is the buffer
handed to `CreateBitmap`, and for every pixel `i < width * height` the result
has the input's byte `4i+2` at `4i+0`, byte `4i+1` at `4i+1` and byte `4i+0` at
`4i+2`; swapping the result again gives back the three colour bytes of every
pixel. -/
theorem channel_swap_red_blue (width height : Nat) (pixels : List Nat) (garbage : Nat → Nat)
    (h32 : width * height * 4 < 2 ^ 32) (hlen : pixels.length = width * height * 4) :
    ∃ out, channelSwap width height pixels garbage = some out ∧
      out.length = width * height * 4 ∧
      (∀ w : Win32, w.openClipboardOk = true → w.emptyClipboardOk = true →
        ∃ w' rest, setImage width height pixels garbage w = some w' ∧
          w'.calls = w.calls ++ Call.OpenClipboard :: Call.EmptyClipboard ::
            Call.CreateBitmap width height 4 8 out :: rest ∧
          ∀ a b p q bits, Call.CreateBitmap a b p q bits ∉ rest) ∧
      (∀ i, i < width * height →
        out[4 * i + 0]? = pixels[4 * i + 2]? ∧ out[4 * i + 1]? = pixels[4 * i + 1]? ∧
        out[4 * i + 2]? = pixels[4 * i + 0]?) ∧
      (∀ garbage2 : Nat → Nat, ∃ back, channelSwap width height out garbage2 = some back ∧
        ∀ i, i < width * height →
          back[4 * i + 0]? = pixels[4 * i + 0]? ∧ back[4 * i + 1]? = pixels[4 * i + 1]? ∧
          back[4 * i + 2]? = pixels[4 * i + 2]?) := by
  obtain ⟨out, hout, hl, hpix, -⟩ := channelSwap_spec width height pixels garbage h32 hlen
  refine ⟨out, hout, hl, ?_, ?_, ?_⟩
  · intro w ho he
    exact setImage_createBitmap width height pixels garbage w out ho he hout
  · intro i hi
    exact hpix i hi
  · intro garbage2
    obtain ⟨back, hback, -, hpix2, -⟩ := channelSwap_spec width height out garbage2 h32 hl
    refine ⟨back, hback, ?_⟩
    intro i hi
    obtain ⟨a0, a1, a2⟩ := hpix i hi
    obtain ⟨b0, b1, b2⟩ := hpix2 i hi
    exact ⟨b0.trans a2, b1.trans a1, b2.trans a0⟩

/-- C5 on a single pixel `[1, 2, 3, 4]`. -/
theorem channel_swap_red_blue_witness :
    1 * 1 * 4 < 2 ^ 32 ∧
    ∃ out, channelSwap 1 1 [1, 2, 3, 4] (fun _ => 0) = some out ∧
      out.length = 1 * 1 * 4 ∧
      (∀ w : Win32, w.openClipboardOk = true → w.emptyClipboardOk = true →
        ∃ w' rest, setImage 1 1 [1, 2, 3, 4] (fun _ => 0) w = some w' ∧
          w'.calls = w.calls ++ Call.OpenClipboard :: Call.EmptyClipboard ::
            Call.CreateBitmap 1 1 4 8 out :: rest ∧
          ∀ a b p q bits, Call.CreateBitmap a b p q bits ∉ rest) ∧
      (∀ i, i < 1 * 1 →
        out[4 * i + 0]? = [1, 2, 3, 4][4 * i + 2]? ∧ out[4 * i + 1]? = [1, 2, 3, 4][4 * i + 1]? ∧
        out[4 * i + 2]? = [1, 2, 3, 4][4 * i + 0]?) ∧
      (∀ garbage2 : Nat → Nat, ∃ back, channelSwap 1 1 out garbage2 = some back ∧
        ∀ i, i < 1 * 1 →
          back[4 * i + 0]? = [1, 2, 3, 4][4 * i + 0]? ∧
          back[4 * i + 1]? = [1, 2, 3, 4][4 * i + 1]? ∧
          back[4 * i + 2]? = [1, 2, 3, 4][4 * i + 2]?) :=
  ⟨by norm_num, channel_swap_red_blue 1 1 [1, 2, 3, 4] (fun _ => 0) (by norm_num) rfl⟩

/-- C8 at `width = 65536`, `height = 16384` with a pixel buffer of `2 ^ 32`
bytes: the loop bound is `2 ^ 30`, the allocated length `width * height * 4`
is 0 in 32-bit arithmetic, the first index written (0) is not below it, and
the channel swap, hence `setImage`, has no defined result. -/
theorem channel_swap_index_overflow :
    mul32 65536 16384 = 1073741824 ∧
    mul32 (mul32 65536 16384) 4 = 0 ∧
    (0 < mul32 65536 16384 ∧ ¬ add32 (mul32 0 4) 0 < mul32 (mul32 65536 16384) 4) ∧
    (List.replicate 4294967296 0).length = 65536 * 16384 * 4 ∧
    channelSwap 65536 16384 (List.replicate 4294967296 0) (fun _ => 0) = none ∧
    setImage 65536 16384 (List.replicate 4294967296 0) (fun _ => 0) allOk = none := by
  refine ⟨by norm_num [mul32], by norm_num [mul32], ⟨by norm_num [mul32], by norm_num [mul32, add32]⟩,
    by rw [List.length_replicate], channelSwap_wrapped, ?_⟩
  exact setImage_undefined _ _ _ _ _ rfl rfl channelSwap_wrapped

/-- C6 as stated fails: on the single pixel `[1, 2, 3, 4]` with a fresh
allocation holding zeros the buffer handed to `CreateBitmap` is `[3, 2, 1, 0]`,
whose alpha byte is not the input's, and a fresh allocation holding 9 gives a
different buffer for the same input. -/
theorem alpha_not_marshalled :
    channelSwap 1 1 [1, 2, 3, 4] (fun _ => 0) = some [3, 2, 1, 0] ∧
    ([3, 2, 1, 0] : List Nat)[4 * 0 + 3]? ≠ ([1, 2, 3, 4] : List Nat)[4 * 0 + 3]? ∧
    channelSwap 1 1 [1, 2, 3, 4] (fun _ => 9) = some [3, 2, 1, 9] ∧
    ¬ (∀ (width height : Nat) (pixels : List Nat) (garbage : Nat → Nat) (out : List Nat),
        width * height * 4 < 2 ^ 32 → pixels.length = width * height * 4 →
        channelSwap width height pixels garbage = some out →
        ∀ i, i < width * height → out[4 * i + 3]? = pixels[4 * i + 3]?) := by
  refine ⟨by decide, by decide, by decide, ?_⟩
  intro h
  have := h 1 1 [1, 2, 3, 4] (fun _ => 0) [3, 2, 1, 0] (by norm_num) rfl (by decide) 0
    (by norm_num)
  exact absurd this (by decide)

/-- C6 amended: for `width * height * 4 < 2 ^ 32` and a pixel buffer of
`width * height * 4` bytes, the alpha byte of every pixel of the buffer handed
to `CreateBitmap` is the byte the fresh allocation held there (the loop never
writes it), and that buffer is determined by the input pixels together with
those bytes: a run whose fresh allocation agrees at the positions `4i+3`
hands the same buffer to `CreateBitmap`. -/
theorem alpha_left_as_allocated (width height : Nat) (pixels : List Nat)
    (garbage : Nat → Nat)
    (h32 : width * height * 4 < 2 ^ 32) (hlen : pixels.length = width * height * 4) :
    ∃ out, channelSwap width height pixels garbage = some out ∧
      (∀ w : Win32, w.openClipboardOk = true → w.emptyClipboardOk = true →
        ∃ w' rest, setImage width height pixels garbage w = some w' ∧
          w'.calls = w.calls ++ Call.OpenClipboard :: Call.EmptyClipboard ::
            Call.CreateBitmap width height 4 8 out :: rest ∧
          ∀ a b p q bits, Call.CreateBitmap a b p q bits ∉ rest) ∧
      (∀ i, i < width * height → out[4 * i + 3]? = some (garbage (4 * i + 3))) ∧
      (∀ garbage2 : Nat → Nat,
        (∀ i, i < width * height → garbage2 (4 * i + 3) = garbage (4 * i + 3)) →
        channelSwap width height pixels garbage2 = some out) := by
  obtain ⟨out, hout, hl, hpix, halpha⟩ := channelSwap_spec width height pixels garbage h32 hlen
  refine ⟨out, hout, ?_, halpha, ?_⟩
  · intro w ho he
    exact setImage_createBitmap width height pixels garbage w out ho he hout
  · intro garbage2 hg
    obtain ⟨out2, hout2, hl2, hpix2, halpha2⟩ :=
      channelSwap_spec width height pixels garbage2 h32 hlen
    rw [hout2]
    congr 1
    apply List.ext_getElem?
    intro k
    by_cases hk : k < width * height * 4
    · have hq : k / 4 < width * height := by omega
      obtain ⟨a0, a1, a2⟩ := hpix (k / 4) hq
      obtain ⟨b0, b1, b2⟩ := hpix2 (k / 4) hq
      have a3 := halpha (k / 4) hq
      have b3 := halpha2 (k / 4) hq
      rw [hg (k / 4) hq] at b3
      have hr : k = 4 * (k / 4) ∨ k = 4 * (k / 4) + 1 ∨ k = 4 * (k / 4) + 2 ∨
          k = 4 * (k / 4) + 3 := by omega
      rcases hr with e | e | e | e <;> rw [e]
      · exact b0.trans a0.symm
      · exact b1.trans a1.symm
      · exact b2.trans a2.symm
      · exact b3.trans a3.symm
    · rw [List.getElem?_eq_none (by omega), List.getElem?_eq_none (by omega)]

/-- C6 amended, on the single pixel `[1, 2, 3, 4]` with a fresh allocation holding 7. -/
theorem alpha_left_as_allocated_witness :
    1 * 1 * 4 < 2 ^ 32 ∧
    ∃ out, channelSwap 1 1 [1, 2, 3, 4] (fun _ => 7) = some out ∧
      (∀ w : Win32, w.openClipboardOk = true → w.emptyClipboardOk = true →
        ∃ w' rest, setImage 1 1 [1, 2, 3, 4] (fun _ => 7) w = some w' ∧
          w'.calls = w.calls ++ Call.OpenClipboard :: Call.EmptyClipboard ::
            Call.CreateBitmap 1 1 4 8 out :: rest ∧
          ∀ a b p q bits, Call.CreateBitmap a b p q bits ∉ rest) ∧
      (∀ i, i < 1 * 1 → out[4 * i + 3]? = some ((fun _ => 7) (4 * i + 3))) ∧
      (∀ garbage2 : Nat → Nat,
        (∀ i, i < 1 * 1 → garbage2 (4 * i + 3) = (fun _ => 7) (4 * i + 3)) →
        channelSwap 1 1 [1, 2, 3, 4] garbage2 = some out) :=
  ⟨by norm_num, alpha_left_as_allocated 1 1 [1, 2, 3, 4] (fun _ => 7) (by norm_num) rfl⟩

/-- C1 at an OS where `OpenClipboard` succeeds and `EmptyClipboard` fails:
`setString` and `setImage` return after the two calls, having written their
message, without calling `CloseClipboard`, and leave the clipboard open; on
its own failure path after a successful `OpenClipboard` (a null handle from
`GetClipboardData`) `getString` does call `CloseClipboard`. -/
theorem clipboard_left_open_when_empty_fails :
    (setString win32Codec [79, 75] emptyFails).map
        (fun w => (w.calls, w.count Call.CloseClipboard, w.isOpen, w.cerr)) =
      some ([Call.OpenClipboard, Call.EmptyClipboard], 0, true,
        ["Failed to empty the Win32 clipboard."]) ∧
    (setImage 1 1 [1, 2, 3, 4] (fun _ => 0) emptyFails).map
        (fun w => (w.calls, w.count Call.CloseClipboard, w.isOpen, w.cerr)) =
      some ([Call.OpenClipboard, Call.EmptyClipboard], 0, true,
        ["Failed to empty the Win32 clipboard."]) ∧
    (getString win32Codec getDataFails).map
        (fun r => (r.2.calls, r.2.count Call.CloseClipboard, r.2.isOpen)) =
      some ([Call.IsClipboardFormatAvailable CF_UNICODETEXT, Call.OpenClipboard,
        Call.GetClipboardData CF_UNICODETEXT, Call.CloseClipboard], 1, false) := by
  refine ⟨by decide, by decide, by decide⟩

/-- C2: when `CF_UNICODETEXT` is not available, or `OpenClipboard` fails, or
`GetClipboardData` returns a null handle, `getString` returns the empty string
and writes one message to `std::cerr`; in the first two cases it makes no
`GetClipboardData` call. -/
theorem getString_failure_cases (codec : WideCodec) (w : Win32)
    (h : (IsClipboardFormatAvailable CF_UNICODETEXT w).1 = false ∨
      w.openClipboardOk = false ∨ (GetClipboardData CF_UNICODETEXT w).1 = none) :
    ∃ w' made msg, getString codec w = some ([], w') ∧
      w'.calls = w.calls ++ made ∧ w'.cerr = w.cerr ++ [msg] ∧
      (((IsClipboardFormatAvailable CF_UNICODETEXT w).1 = false ∨
          w.openClipboardOk = false) →
        ∀ format, Call.GetClipboardData format ∉ made) := by
  rcases hc : w.clipboard with _ | ⟨buffer | ⟨bits, bytes⟩⟩
  · simp only [getString, IsClipboardFormatAvailable, Win32.call, hc]
    exact ⟨_, [Call.IsClipboardFormatAvailable CF_UNICODETEXT], _, rfl, rfl, rfl, by simp⟩
  · by_cases ho : w.openClipboardOk = true
    · have hg : w.getClipboardDataOk = false := by
        cases hgv : w.getClipboardDataOk
        · rfl
        · simp [IsClipboardFormatAvailable, GetClipboardData, Win32.call, hc, ho, hgv] at h
      simp only [getString, IsClipboardFormatAvailable, OpenClipboard, GetClipboardData,
        Win32.call, hc, ho, hg]
      exact ⟨_, [Call.IsClipboardFormatAvailable CF_UNICODETEXT, Call.OpenClipboard,
        Call.GetClipboardData CF_UNICODETEXT, Call.CloseClipboard], _, rfl,
        by simp [CloseClipboard, Win32.call, Win32.err], rfl, by simp [ho]⟩
    · simp only [getString, IsClipboardFormatAvailable, OpenClipboard, Win32.call, hc, ho]
      exact ⟨_, [Call.IsClipboardFormatAvailable CF_UNICODETEXT, Call.OpenClipboard], _, rfl,
        by simp [Win32.err], rfl, by simp⟩
  · simp only [getString, IsClipboardFormatAvailable, Win32.call, hc]
    exact ⟨_, [Call.IsClipboardFormatAvailable CF_UNICODETEXT], _, rfl, rfl, rfl, by simp⟩

/-- C2 on an empty clipboard (format not available), on an OS whose
`OpenClipboard` fails and on an OS whose `GetClipboardData` returns null. -/
theorem getString_failure_cases_witness :
    (IsClipboardFormatAvailable CF_UNICODETEXT allOk).1 = false ∧
    openFails.openClipboardOk = false ∧
    (GetClipboardData CF_UNICODETEXT getDataFails).1 = none ∧
    (∃ w' made msg, getString win32Codec allOk = some ([], w') ∧
      w'.calls = allOk.calls ++ made ∧ w'.cerr = allOk.cerr ++ [msg] ∧
      (((IsClipboardFormatAvailable CF_UNICODETEXT allOk).1 = false ∨
          allOk.openClipboardOk = false) →
        ∀ format, Call.GetClipboardData format ∉ made)) ∧
    (∃ w' made msg, getString win32Codec openFails = some ([], w') ∧
      w'.calls = openFails.calls ++ made ∧ w'.cerr = openFails.cerr ++ [msg] ∧
      (((IsClipboardFormatAvailable CF_UNICODETEXT openFails).1 = false ∨
          openFails.openClipboardOk = false) →
        ∀ format, Call.GetClipboardData format ∉ made)) ∧
    (∃ w' made msg, getString win32Codec getDataFails = some ([], w') ∧
      w'.calls = getDataFails.calls ++ made ∧ w'.cerr = getDataFails.cerr ++ [msg] ∧
      (((IsClipboardFormatAvailable CF_UNICODETEXT getDataFails).1 = false ∨
          getDataFails.openClipboardOk = false) →
        ∀ format, Call.GetClipboardData format ∉ made)) :=
  ⟨rfl, rfl, rfl, getString_failure_cases win32Codec allOk (Or.inl rfl),
    getString_failure_cases win32Codec openFails (Or.inr (Or.inl rfl)),
    getString_failure_cases win32Codec getDataFails (Or.inr (Or.inr rfl))⟩

/-- C3 as stated fails: when only `GlobalAlloc` fails, `setString` writes no
message and returns with the clipboard emptied, its previous text gone; the
same holds for `setImage` when only the bit conversion fails. -/
theorem allocation_failure_not_a_logged_noop :
    allocFails.clipboard = some (Clip.unicodeText [72, 105, 0]) ∧
    (setString win32Codec [79, 75] allocFails).map (fun w => (w.calls, w.cerr, w.clipboard)) =
      some ([Call.OpenClipboard, Call.EmptyClipboard, Call.GlobalAlloc 6,
        Call.CloseClipboard], [], none) ∧
    convFails.clipboard = some (Clip.unicodeText [72, 105, 0]) ∧
    (setImage 1 1 [1, 2, 3, 4] (fun _ => 0) convFails).map
        (fun w => (w.count (Call.SetClipboardData CF_DIB), w.cerr, w.clipboard)) =
      some (0, [], none) ∧
    ¬ (∀ (codec : WideCodec) (text : List Nat) (w w' : Win32),
        (w.openClipboardOk = false ∨ w.emptyClipboardOk = false ∨ w.globalAllocOk = false) →
        setString codec text w = some w' →
        w.cerr.length < w'.cerr.length ∧ w'.clipboard = w.clipboard) := by
  refine ⟨rfl, by decide, rfl, by decide, ?_⟩
  intro h
  have hrun : (setString win32Codec [79, 75] allocFails).map (fun w => w.cerr.length) =
      some 0 := by decide
  obtain ⟨w', hw', hc⟩ := Option.map_eq_some'.mp hrun
  have := (h win32Codec [79, 75] allocFails w' (Or.inr (Or.inr rfl)) hw').1
  rw [hc] at this
  exact absurd this (by decide)

/-- C3 amended: when `OpenClipboard` or `EmptyClipboard` fails, `setString` and
`setImage` write one message, do not call `SetClipboardData` and leave the
clipboard contents as they were; when the allocation fails (for `setImage` on
a well-sized pixel buffer: the allocation or the bit conversion) after
`EmptyClipboard` succeeded, `SetClipboardData` is not called and the clipboard
is empty on return. -/
theorem failure_handling_of_setters (codec : WideCodec) (text : List Nat)
    (width height : Nat) (pixels : List Nat) (garbage : Nat → Nat) (w : Win32) :
    ((w.openClipboardOk = false ∨ w.emptyClipboardOk = false) →
      (∃ w' made msg, setString codec text w = some w' ∧ w'.calls = w.calls ++ made ∧
        (∀ format, Call.SetClipboardData format ∉ made) ∧
        w'.cerr = w.cerr ++ [msg] ∧ w'.clipboard = w.clipboard) ∧
      (∃ w' made msg, setImage width height pixels garbage w = some w' ∧
        w'.calls = w.calls ++ made ∧
        (∀ format, Call.SetClipboardData format ∉ made) ∧
        w'.cerr = w.cerr ++ [msg] ∧ w'.clipboard = w.clipboard)) ∧
    (w.openClipboardOk = true → w.emptyClipboardOk = true → w.globalAllocOk = false →
      ∃ w' made, setString codec text w = some w' ∧ w'.calls = w.calls ++ made ∧
        (∀ format, Call.SetClipboardData format ∉ made) ∧ w'.clipboard = none) ∧
    (w.openClipboardOk = true → w.emptyClipboardOk = true →
      (w.globalAllocOk = false ∨ w.nConv = 0) →
      width * height * 4 < 2 ^ 32 → pixels.length = width * height * 4 →
      ∃ w' made, setImage width height pixels garbage w = some w' ∧
        w'.calls = w.calls ++ made ∧
        (∀ format, Call.SetClipboardData format ∉ made) ∧ w'.clipboard = none) := by
  refine ⟨?_, ?_, ?_⟩
  · intro h
    by_cases ho : w.openClipboardOk = true
    · have he : w.emptyClipboardOk = false := by
        rcases h with h | h
        · rw [ho] at h; exact absurd h (by decide)
        · exact h
      constructor
      · simp only [setString, OpenClipboard, EmptyClipboard, Win32.call, ho, he]
        exact ⟨_, [Call.OpenClipboard, Call.EmptyClipboard], _, rfl,
          by simp [Win32.err], by simp, rfl, rfl⟩
      · simp only [setImage, OpenClipboard, EmptyClipboard, Win32.call, ho, he]
        exact ⟨_, [Call.OpenClipboard, Call.EmptyClipboard], _, rfl,
          by simp [Win32.err], by simp, rfl, rfl⟩
    · constructor
      · simp only [setString, OpenClipboard, Win32.call, ho]
        exact ⟨_, [Call.OpenClipboard], _, rfl, rfl, by simp, rfl, rfl⟩
      · simp only [setImage, OpenClipboard, Win32.call, ho]
        exact ⟨_, [Call.OpenClipboard], _, rfl, rfl, by simp, rfl, rfl⟩
  · intro ho he ha
    simp only [setString, OpenClipboard, EmptyClipboard, GlobalAlloc, CloseClipboard,
      Win32.call, ho, he, ha]
    exact ⟨_, [Call.OpenClipboard, Call.EmptyClipboard,
      Call.GlobalAlloc ((text.length + 1) * sizeofWCHAR), Call.CloseClipboard], rfl,
      by simp, by simp, rfl⟩
  · intro ho he hf h32 hlen
    obtain ⟨out, hout, -⟩ := channelSwap_spec width height pixels garbage h32 hlen
    obtain ⟨w', bytes, hrun, hcalls, -, -, hclip⟩ :=
      setImage_run width height pixels garbage w out ho he hout
    refine ⟨w', _, hrun, hcalls, ?_, ?_⟩
    · intro format
      by_cases ha : w.globalAllocOk = true <;> by_cases hn : w.nConv = 0 <;>
        simp [ha, hn]
      rcases hf with hf | hf
      · rw [ha] at hf; exact absurd hf (by decide)
      · exact absurd hf hn
    · rw [hclip]
      by_cases ha : w.globalAllocOk = true <;> by_cases hn : w.nConv = 0 <;>
        simp [ha, hn]
      rcases hf with hf | hf
      · rw [ha] at hf; exact absurd hf (by decide)
      · exact absurd hf hn

/-- C3 amended, on OSes where `EmptyClipboard`, `GlobalAlloc` and the bit
conversion fail in turn. -/
theorem failure_handling_of_setters_witness :
    (∃ w' made msg, setString win32Codec [79, 75] emptyFails = some w' ∧
      w'.calls = emptyFails.calls ++ made ∧
      (∀ format, Call.SetClipboardData format ∉ made) ∧
      w'.cerr = emptyFails.cerr ++ [msg] ∧ w'.clipboard = emptyFails.clipboard) ∧
    (∃ w' made, setString win32Codec [79, 75] allocFails = some w' ∧
      w'.calls = allocFails.calls ++ made ∧
      (∀ format, Call.SetClipboardData format ∉ made) ∧ w'.clipboard = none) ∧
    (∃ w' made, setImage 1 1 [1, 2, 3, 4] (fun _ => 0) convFails = some w' ∧
      w'.calls = convFails.calls ++ made ∧
      (∀ format, Call.SetClipboardData format ∉ made) ∧ w'.clipboard = none) :=
  ⟨((failure_handling_of_setters win32Codec [79, 75] 1 1 [1, 2, 3, 4] (fun _ => 0)
      emptyFails).1 (Or.inr rfl)).1,
    (failure_handling_of_setters win32Codec [79, 75] 1 1 [1, 2, 3, 4] (fun _ => 0)
      allocFails).2.1 rfl rfl rfl,
    (failure_handling_of_setters win32Codec [79, 75] 1 1 [1, 2, 3, 4] (fun _ => 0)
      convFails).2.2 rfl rfl (Or.inr rfl) (by norm_num) rfl⟩

/-- C4: on an OS where every call succeeds, with conversions under which a
non-zero character that converts to one wide character converts to a non-null
one that reads back as the character, for every text whose characters are all
non-zero and each convert to exactly one wide character: `setString` stores
`text.getSize() + 1` wide characters, the wide characters of the text followed
by one null terminator, and a following `getString` returns the text. -/
theorem text_round_trip (codec : WideCodec) (text : List Nat) (w : Win32)
    (hopen : w.openClipboardOk = true) (hempty : w.emptyClipboardOk = true)
    (halloc : w.globalAllocOk = true) (hset : w.setClipboardDataOk = true)
    (hget : w.getClipboardDataOk = true)
    (hcodec : ∀ c wc, c ≠ 0 → codec.encodeWide c = [wc] →
      wc ≠ 0 ∧ codec.decodeWide wc = c)
    (htext : ∀ c ∈ text, c ≠ 0 ∧ (codec.encodeWide c).length = 1) :
    ∃ w1, setString codec text w = some w1 ∧
      w1.clipboard = some (Clip.unicodeText (toWideString codec text ++ [0])) ∧
      (toWideString codec text ++ [0]).length = text.length + 1 ∧
      (toWideString codec text).map codec.decodeWide = text ∧
      ∃ w2, getString codec w1 = some (text, w2) := by
  have hone : ∀ c ∈ text, c ≠ 0 ∧
      ∃ wc, wc ≠ 0 ∧ codec.encodeWide c = [wc] ∧ codec.decodeWide wc = c := by
    intro c hc
    obtain ⟨hnz, hlen⟩ := htext c hc
    obtain ⟨wc, hwc⟩ := List.length_eq_one.mp hlen
    exact ⟨hnz, wc, (hcodec c wc hnz hwc).1, hwc, (hcodec c wc hnz hwc).2⟩
  obtain ⟨hl, hnz, hmap⟩ := toWideString_one_each codec text hone
  have hcpy := memcpyWide_whole (toWideString codec text) text.length hl
  have hread : fromWide codec (toWideString codec text ++ [0]) = some text := by
    unfold fromWide
    rw [readWide_terminated _ [] hnz]
    simp [hmap]
  obtain ⟨w1, hrun, hclip, ho1, hg1⟩ :=
    setString_stores codec text _ w hopen hempty halloc hset hcpy
  refine ⟨w1, hrun, hclip, by simp [hl], hmap, ?_⟩
  exact getString_reads codec text _ w1 hclip ho1 (hg1.trans hget) hread

/-- C4 for the text "OK" with the 16-bit conversions of Win32: the stored
block is `[79, 75, 0]` and `getString` returns "OK". -/
theorem text_round_trip_witness :
    (∀ c wc, c ≠ 0 → win32Codec.encodeWide c = [wc] →
      wc ≠ 0 ∧ win32Codec.decodeWide wc = c) ∧
    (∀ c ∈ [79, 75], c ≠ 0 ∧ (win32Codec.encodeWide c).length = 1) ∧
    toWideString win32Codec [79, 75] ++ [0] = [79, 75, 0] ∧
    ∃ w1, setString win32Codec [79, 75] allOk = some w1 ∧
      w1.clipboard = some (Clip.unicodeText (toWideString win32Codec [79, 75] ++ [0])) ∧
      (toWideString win32Codec [79, 75] ++ [0]).length = [79, 75].length + 1 ∧
      (toWideString win32Codec [79, 75]).map win32Codec.decodeWide = [79, 75] ∧
      ∃ w2, getString win32Codec w1 = some ([79, 75], w2) := by
  have hcodec : ∀ c wc, c ≠ 0 → win32Codec.encodeWide c = [wc] →
      wc ≠ 0 ∧ win32Codec.decodeWide wc = c := by
    intro c wc hc h
    simp only [win32Codec] at h ⊢
    split_ifs at h
    have e : c = wc := by simpa using h
    exact ⟨e ▸ hc, e.symm⟩
  have htext : ∀ c ∈ [79, 75], c ≠ 0 ∧ (win32Codec.encodeWide c).length = 1 := by
    decide
  exact ⟨hcodec, htext, by decide,
    text_round_trip win32Codec [79, 75] allOk rfl rfl rfl rfl rfl hcodec htext⟩

end ClipboardImpl
